import Mathlib

/-
  Verification development for the Google Docs document service
  (src DocumentService): a shallow embedding of its data model
  (the nested content tree returned by the backend read) and of the
  batch-update requests each high-level operation submits, followed by
  theorems settling the stated properties.

  Conventions of the embedding:
  * Optional schema fields are Option; JavaScript falsy coalescing
    (x || d) is modelled field by field where the source uses it.
  * List-valued schema fields that the source only ever reads through
    (xs || []) are modelled as plain lists, since an absent list and an
    empty list are indistinguishable to every use site.
  * JavaScript string trim is modelled by jsTrim, dropping whitespace
    characters from both ends of the character list.
  * Each mutating operation is modelled by the sequence of backend calls
    (reads and batch submissions) it issues, as data.
-/

namespace GDocs

/-- Models JavaScript String.prototype.trim: drop whitespace from both
ends of the string. -/
def jsTrim (s : String) : String :=
  ⟨((s.data.dropWhile Char.isWhitespace).reverse.dropWhile Char.isWhitespace).reverse⟩

/-- A text run: schema TextRun, field content. -/
structure TextRun where
  content : Option String

/-- A paragraph element: schema ParagraphElement, field textRun. -/
structure ParagraphElement where
  textRun : Option TextRun

/-- A paragraph: schema Paragraph, field elements. -/
structure Paragraph where
  elements : List ParagraphElement

mutual

/-- A structural element of the body content: schema StructuralElement
with the fields the service reads (endIndex, paragraph, table). -/
inductive StructuralElement : Type where
  | mk (endIndex : Option Int) (paragraph : Option Paragraph) (table : Option Table)

/-- A table: schema Table, field tableRows. -/
inductive Table : Type where
  | mk (tableRows : List TableRow)

/-- A table row: schema TableRow, field tableCells. -/
inductive TableRow : Type where
  | mk (tableCells : List TableCell)

/-- A table cell: schema TableCell, field content, itself a list of
structural elements (the recursive knot of the schema). -/
inductive TableCell : Type where
  | mk (content : List StructuralElement)

end

def StructuralElement.endIndex : StructuralElement → Option Int
  | .mk e _ _ => e

def StructuralElement.paragraph : StructuralElement → Option Paragraph
  | .mk _ p _ => p

def StructuralElement.table : StructuralElement → Option Table
  | .mk _ _ t => t

def Table.tableRows : Table → List TableRow
  | .mk r => r

def TableRow.tableCells : TableRow → List TableCell
  | .mk c => c

def TableCell.content : TableCell → List StructuralElement
  | .mk c => c

/-- Schema Body: field content, the list of top level structural
elements (optional in the schema). -/
structure Body where
  content : Option (List StructuralElement)

/-- Schema Document as the service reads it: title and body. -/
structure Document where
  title : Option String
  body : Option Body

/-- The end-of-document index the service computes before every
append-style edit:
doc.body?.content?.slice(-1)[0]?.endIndex || 1.
Optional chaining that hits an absent field, an empty content list, or
an absent endIndex yields undefined, and || 1 turns undefined and the
falsy number 0 into 1. -/
def endOfDocumentIndex (doc : Document) : Int :=
  match ((doc.body.bind Body.content).bind List.getLast?).bind StructuralElement.endIndex with
  | some n => if n = 0 then 1 else n
  | none => 1

/-- The insertion index the append-style operations derive:
endOfDocumentIndex minus 1 (the IndexResolver appendInsertionIndex). -/
def appendInsertionIndex (doc : Document) : Int :=
  endOfDocumentIndex doc - 1

/-- One request of a batchUpdate submission, as built by the service. -/
inductive EditOp : Type where
  | insertText (index : Int) (text : String)
  | deleteContentRange (startIndex endIndex : Int)
  | updateParagraphStyle (startIndex endIndex : Int) (namedStyleType : String) (fields : String)
  | createParagraphBullets (startIndex endIndex : Int) (bulletPreset : String)
  | replaceAllText (text : String) (matchCase : Bool) (replacement : String)
deriving DecidableEq

/-- One backend call issued by an operation: a document read
(getDocument) or a batch submission (batchUpdateDocument). -/
inductive Call : Type where
  | read
  | submit (requests : List EditOp)
deriving DecidableEq

/-- Backend calls of appendText(documentId, text): return early on empty
text, otherwise read the document and submit one InsertText at
endOfDocumentIndex - 1. -/
def appendTextCalls (doc : Document) (text : String) : List Call :=
  if text = "" then []
  else
    [.read, .submit [.insertText (endOfDocumentIndex doc - 1) text]]

/-- Backend calls of insertText(documentId, text, index): return early
on empty text, otherwise submit one InsertText at the caller supplied
index, with no read. -/
def insertTextCalls (text : String) (index : Int) : List Call :=
  if text = "" then []
  else [.submit [.insertText index text]]

/-- Backend calls of replaceText(documentId, searchText, replaceText):
one submission holding one ReplaceAllText request with matchCase true. -/
def replaceTextCalls (searchText replacement : String) : List Call :=
  [.submit [.replaceAllText searchText true replacement]]

/-- Schema ReplaceAllTextResponse: field occurrencesChanged. -/
structure ReplaceAllTextResult where
  occurrencesChanged : Option Nat

/-- One reply of a batchUpdate response. -/
structure BatchUpdateReply where
  replaceAllText : Option ReplaceAllTextResult

/-- A batchUpdate response: field replies. -/
structure BatchUpdateResponse where
  replies : Option (List BatchUpdateReply)

/-- The number replaceText returns:
response.replies?.[0]?.replaceAllText?.occurrencesChanged || 0
(on a count, || 0 is the identity extended with 0 for undefined). -/
def replaceTextResult (response : BatchUpdateResponse) : Nat :=
  (((response.replies.bind (fun rs => rs.get? 0)).bind
      BatchUpdateReply.replaceAllText).bind
      ReplaceAllTextResult.occurrencesChanged).getD 0

/-- Backend calls of deleteContent(documentId, startIndex, endIndex):
one submission holding one DeleteContentRange request. -/
def deleteContentCalls (startIndex endIndex : Int) : List Call :=
  [.submit [.deleteContentRange startIndex endIndex]]

/-- Backend calls of clearDocument(documentId): read the document, then
delete the range [1, endOfDocumentIndex - 1] only when
endOfDocumentIndex exceeds 1. -/
def clearDocumentCalls (doc : Document) : List Call :=
  .read ::
    (if 1 < endOfDocumentIndex doc then
      deleteContentCalls 1 (endOfDocumentIndex doc - 1)
    else [])

/-- Modelled from the spec: the transport client (DriveAPIClient, whose
code is not under src) applies a submitted batch atomically, and the
clear guarantee of the design leaves the document with zero content
length; so a successful clear of a document whose end-of-document index
exceeds 1 leaves an empty content tree, and a clear that submits
nothing leaves the document unchanged. -/
def clearedDocument (doc : Document) : Document :=
  if 1 < endOfDocumentIndex doc then
    { title := doc.title, body := some ⟨some []⟩ }
  else doc

/-- Backend calls of updateDocument(documentId, content): the calls of
clearDocument, then, only when content is non-empty, the calls of
appendText against the document state the clear left behind. -/
def updateDocumentCalls (doc : Document) (content : String) : List Call :=
  clearDocumentCalls doc ++
    (if content = "" then [] else appendTextCalls (clearedDocument doc) content)

/-- Modelled from the spec: batch submission is atomic all-or-nothing,
so when the append step of updateDocument fails after a successful
clear, the failed submission applies nothing and the document is left
exactly as the clear left it. -/
def updateFailedAppendDoc (doc : Document) : Document :=
  clearedDocument doc

/-- Backend calls of addHeading(documentId, text, headingLevel): read
the document, then submit one batch holding the InsertText of
text + newline at endOfDocumentIndex - 1 followed by the
UpdateParagraphStyle over [insertIndex, insertIndex + length of the
inserted text]. -/
def addHeadingCalls (doc : Document) (text : String) (headingLevel : String) : List Call :=
  [.read, .submit
    [.insertText (endOfDocumentIndex doc - 1) (text ++ "\n"),
     .updateParagraphStyle (endOfDocumentIndex doc - 1)
       (endOfDocumentIndex doc - 1 + ((text ++ "\n").length : Int))
       headingLevel "namedStyleType"]]

/-- Backend calls of addBulletList(documentId, items): return early on
an empty item list, otherwise read the document and submit one batch
holding the InsertText of the newline-joined items plus a trailing
newline at endOfDocumentIndex - 1, followed by the
CreateParagraphBullets over the inserted range. -/
def addBulletListCalls (doc : Document) (items : List String) : List Call :=
  if items.length = 0 then []
  else
    [.read, .submit
      [.insertText (endOfDocumentIndex doc - 1)
        (String.intercalate "\n" items ++ "\n"),
       .createParagraphBullets (endOfDocumentIndex doc - 1)
         (endOfDocumentIndex doc - 1 + ((String.intercalate "\n" items ++ "\n").length : Int))
         "BULLET_DISC_CIRCLE_SQUARE"]]

/-- Text contributed by one paragraph element in the top level walk of
readDocument: the run content when present, empty otherwise (the source
guard also skips an empty string, which contributes nothing either
way). -/
def runContent (pe : ParagraphElement) : String :=
  (pe.textRun.bind TextRun.content).getD ""

/-- Text contributed by an optional paragraph in the top level walk of
readDocument: the concatenation of its run contents. -/
def paragraphText : Option Paragraph → String
  | some p => String.join (p.elements.map runContent)
  | none => ""

/-- Text contributed by one structural element inside a table cell in
readDocument: only the paragraph branch exists there, and each run
content is trimmed individually before concatenation. -/
def cellElementText (e : StructuralElement) : String :=
  match e.paragraph with
  | some p => String.join (p.elements.map (fun pe => jsTrim (runContent pe)))
  | none => ""

/-- Text of one table cell in readDocument: concatenation over the
nested content elements of their cell element text. -/
def cellText (c : TableCell) : String :=
  String.join (c.content.map cellElementText)

/-- Line emitted for one table row in readDocument: the cell texts
joined by the literal separator, plus a newline. -/
def rowText (r : TableRow) : String :=
  String.intercalate " | " (r.tableCells.map cellText) ++ "\n"

/-- Text emitted for one table in readDocument: the opening marker
line, the row lines, the closing marker line. -/
def tableText (t : Table) : String :=
  "[TABLE]\n" ++ String.join (t.tableRows.map rowText) ++ "[/TABLE]\n"

/-- Text contributed by one top level structural element in
readDocument: its paragraph text, then its table text when a table is
present (the source appends both independently). -/
def elementText (e : StructuralElement) : String :=
  paragraphText e.paragraph ++
    (match e.table with
     | some t => tableText t
     | none => "")

/-- Concatenated walk of a list of top level structural elements. -/
def extractText (l : List StructuralElement) : String :=
  String.join (l.map elementText)

/-- The content string readDocument returns: the walk of the body
content (empty when the body or its content is absent), trimmed. -/
def readDocumentContent (doc : Document) : String :=
  jsTrim (((doc.body.bind Body.content).map extractText).getD "")

/-- The title readDocument returns: doc.title || Untitled. -/
def readDocumentTitle (doc : Document) : String :=
  match doc.title with
  | some t => if t = "" then "Untitled" else t
  | none => "Untitled"

/-
  Specification-side extraction, written from the words of the design
  document for comparison with the source extraction: the block walk is
  applied recursively inside table cells (paragraphs and nested
  tables), and each cell text is the trim of the concatenated walk of
  the nested blocks.
-/

mutual

/-- Walk of a block list as the design document words it. -/
def specWalkList : List StructuralElement → String
  | [] => ""
  | e :: es => specWalkElem e ++ specWalkList es

/-- Walk of one block as the design document words it: paragraph run
concatenation, then the table rendering when a table is present. -/
def specWalkElem : StructuralElement → String
  | .mk _ p t =>
    paragraphText p ++
      (match t with
       | some tb => specTableText tb
       | none => "")

/-- Table rendering as the design document words it. -/
def specTableText : Table → String
  | .mk rows => "[TABLE]\n" ++ specRowsText rows ++ "[/TABLE]\n"

/-- One line per row. -/
def specRowsText : List TableRow → String
  | [] => ""
  | r :: rs => specRowText r ++ "\n" ++ specRowsText rs

/-- Cell texts joined with the literal separator. -/
def specRowText : TableRow → String
  | .mk cells => String.intercalate " | " (specCellsText cells)

/-- Texts of the cells of one row. -/
def specCellsText : List TableCell → List String
  | [] => []
  | c :: cs => specCellText c :: specCellsText cs

/-- Cell text as the design document words it: recursively apply the
same block walk to the nested blocks of the cell, then trim the
concatenated result. -/
def specCellText : TableCell → String
  | .mk blocks => jsTrim (specWalkList blocks)

end

/-- Cell text as the amended claim words it: walk only the paragraph
blocks of the cell (a table nested inside a cell is ignored), and
concatenate the individually trimmed content of each run. -/
def amendedCellText (c : TableCell) : String :=
  c.content.foldl
    (fun acc e =>
      match e.paragraph with
      | some p => p.elements.foldl (fun acc2 pe => acc2 ++ jsTrim (runContent pe)) acc
      | none => acc)
    ""

theorem string_append_assoc (a b c : String) : a ++ b ++ c = a ++ (b ++ c) := by
  cases a with
  | mk da =>
    cases b with
    | mk db =>
      cases c with
      | mk dc =>
        show String.mk (da ++ db ++ dc) = String.mk (da ++ (db ++ dc))
        rw [List.append_assoc]

theorem string_append_empty (a : String) : a ++ "" = a := by
  cases a with
  | mk da =>
    show String.mk (da ++ []) = String.mk da
    rw [List.append_nil]

theorem foldl_append_eq_join (l : List String) (acc : String) :
    l.foldl (· ++ ·) acc = acc ++ String.join l := by
  induction l generalizing acc with
  | nil => simp [String.join, string_append_empty]
  | cons a l ih =>
    show l.foldl (· ++ ·) (acc ++ a) = acc ++ String.join (a :: l)
    rw [ih (acc ++ a)]
    have hj : String.join (a :: l) = a ++ String.join l := by
      show (a :: l).foldl (· ++ ·) "" = a ++ String.join l
      show l.foldl (· ++ ·) ("" ++ a) = a ++ String.join l
      have : ("" : String) ++ a = a := by
        cases a with
        | mk da => rfl
      rw [this, ih a]
    rw [hj, string_append_assoc]

theorem foldl_append_map_eq_join {α : Type} (f : α → String) (l : List α) (acc : String) :
    l.foldl (fun a x => a ++ f x) acc = acc ++ String.join (l.map f) := by
  rw [← List.foldl_map]
  exact foldl_append_eq_join (l.map f) acc

theorem amendedCellText_eq_cellText (c : TableCell) : amendedCellText c = cellText c := by
  cases c with
  | mk blocks =>
    show blocks.foldl _ "" = cellText (.mk blocks)
    have step : ∀ (acc : String) (e : StructuralElement),
        (fun acc e =>
          match e.paragraph with
          | some p => p.elements.foldl (fun acc2 pe => acc2 ++ jsTrim (runContent pe)) acc
          | none => acc) acc e = acc ++ cellElementText e := by
      intro acc e
      cases e with
      | mk ei p t =>
        cases p with
        | some p =>
          show p.elements.foldl (fun acc2 pe => acc2 ++ jsTrim (runContent pe)) acc =
            acc ++ cellElementText (.mk ei (some p) t)
          rw [foldl_append_map_eq_join (fun pe => jsTrim (runContent pe)) p.elements acc]
          rfl
        | none =>
          show acc = acc ++ cellElementText (.mk ei none t)
          show acc = acc ++ ""
          rw [string_append_empty]
    have gen : ∀ (bs : List StructuralElement) (acc : String),
        bs.foldl (fun acc e =>
          match e.paragraph with
          | some p => p.elements.foldl (fun acc2 pe => acc2 ++ jsTrim (runContent pe)) acc
          | none => acc) acc = acc ++ String.join (bs.map cellElementText) := by
      intro bs
      induction bs with
      | nil => intro acc; simp [String.join, string_append_empty]
      | cons b bs ih =>
        intro acc
        show bs.foldl _ _ = _
        rw [step acc b, ih (acc ++ cellElementText b)]
        have hj : String.join (cellElementText b :: bs.map cellElementText) =
            cellElementText b ++ String.join (bs.map cellElementText) := by
          show (cellElementText b :: bs.map cellElementText).foldl (· ++ ·) "" = _
          show (bs.map cellElementText).foldl (· ++ ·) ("" ++ cellElementText b) = _
          have he : ("" : String) ++ cellElementText b = cellElementText b := by
            cases h : cellElementText b with
            | mk d => rfl
          rw [he, foldl_append_eq_join]
        rw [List.map_cons, hj, string_append_assoc]
    have := gen blocks ""
    rw [this]
    have he : ("" : String) ++ String.join (blocks.map cellElementText) =
        String.join (blocks.map cellElementText) := by
      cases h : String.join (blocks.map cellElementText) with
      | mk d => rfl
    rw [he]
    rfl

/-- A sample document whose single top level block ends at index 5. -/
def sampleDoc : Document := ⟨some "Sample", some ⟨some [.mk (some 5) none none]⟩⟩

/-- A document with a genuinely empty content tree: the body content
list is present but empty, so the end-of-document index is 1. -/
def emptyTreeDoc : Document := ⟨some "Empty", some ⟨some []⟩⟩

/-- A table cell holding one paragraph with two runs whose contents
carry surrounding whitespace. -/
def c2cell : TableCell :=
  .mk [.mk (some 3) (some ⟨[⟨some ⟨some "a "⟩⟩, ⟨some ⟨some " b"⟩⟩]⟩) none]

/-- A document whose content is a single one-row one-cell table built
from the cell above. -/
def c2doc : Document :=
  ⟨some "T", some ⟨some [.mk (some 9) none (some (.mk [.mk [c2cell]]))]⟩⟩

/-- C1: on a genuinely empty content tree (end-of-document index 1) the
append-style operations do not use 1 as a floor for the insertion
index: append, addHeading and addBulletList each submit their insert
at index 0 = endOfDocumentIndex - 1, an index strictly below 1. This
evaluates the code at the failing input the claim is about. -/
theorem append_ops_empty_tree_submit_index_zero :
    endOfDocumentIndex emptyTreeDoc = 1 ∧
    appendTextCalls emptyTreeDoc "Hello" = [.read, .submit [.insertText 0 "Hello"]] ∧
    addHeadingCalls emptyTreeDoc "Hello" "HEADING_1" =
      [.read, .submit [.insertText 0 "Hello\n",
        .updateParagraphStyle 0 6 "HEADING_1" "namedStyleType"]] ∧
    addBulletListCalls emptyTreeDoc ["a"] =
      [.read, .submit [.insertText 0 "a\n",
        .createParagraphBullets 0 2 "BULLET_DISC_CIRCLE_SQUARE"]] ∧
    ¬ 1 ≤ (0 : Int) := by decide

/-- C2 counterexample: for a cell holding one paragraph with runs
containing surrounding whitespace, the source trims each run
individually before concatenating (giving ab), while the claimed rule
(recursive block walk of the nested blocks, then one trim of the
concatenation) gives a  b, so the two disagree at this concrete
input. -/
theorem cell_text_not_recursive_trim_cex :
    cellText c2cell = "ab" ∧
    specCellText c2cell = "a  b" ∧
    readDocumentContent c2doc = "[TABLE]\nab\n[/TABLE]" ∧
    cellText c2cell ≠ specCellText c2cell := by decide

/-- C2 (amended): for every table in the content tree, extraction emits
the opening marker, one line per row joining the cell texts with the
literal separator, and the closing marker, where each cell text walks
only the paragraph blocks of the cell (tables nested inside a cell are
ignored) and concatenates the individually trimmed content of each
run. -/
theorem table_row_lines_with_amended_cell_text
    (ei : Option Int) (p : Option Paragraph) (rows : List TableRow) :
    elementText (.mk ei p (some (.mk rows))) =
      paragraphText p ++
        ("[TABLE]\n" ++
          String.join (rows.map (fun r =>
            String.intercalate " | " (r.tableCells.map amendedCellText) ++ "\n")) ++
          "[/TABLE]\n") := by
  rw [show amendedCellText = cellText from funext amendedCellText_eq_cellText]
  rfl

/-- C3: for a non-empty content tree satisfying the coordinate-space
invariant of the data model (the last top level block carries an
endIndex of at least 2, one past its last character in a space that
starts at index 1), the append insertion index equals the
end-of-document index minus 1, is at least 1, and is the index append
submits its InsertText at. -/
theorem append_insertion_index_of_nonempty_tree (doc : Document) (el : StructuralElement)
    (n : Int) (text : String)
    (hlast : (doc.body.bind Body.content).bind List.getLast? = some el)
    (hend : el.endIndex = some n) (hn : 2 ≤ n) (ht : text ≠ "") :
    appendInsertionIndex doc = endOfDocumentIndex doc - 1 ∧
    1 ≤ appendInsertionIndex doc ∧
    appendTextCalls doc text =
      [.read, .submit [.insertText (appendInsertionIndex doc) text]] := by
  have hnd : ((doc.body.bind Body.content).bind List.getLast?).bind
      StructuralElement.endIndex = some n := by
    rw [hlast]
    exact hend
  have he : endOfDocumentIndex doc = n := by
    unfold endOfDocumentIndex
    rw [hnd]
    have h0 : n ≠ 0 := by omega
    simp [h0]
  refine ⟨rfl, ?_, ?_⟩
  · unfold appendInsertionIndex
    rw [he]
    omega
  · unfold appendTextCalls
    rw [if_neg ht]
    rfl

/-- Witness for C3 at a concrete document whose last block ends at
index 5 and the text x. -/
theorem append_insertion_index_of_nonempty_tree_witness :
    1 ≤ appendInsertionIndex sampleDoc ∧
    appendTextCalls sampleDoc "x" =
      [.read, .submit [.insertText 4 "x"]] := by
  have h := append_insertion_index_of_nonempty_tree sampleDoc
    (.mk (some 5) none none) 5 "x" rfl rfl (by decide) (by decide)
  exact ⟨h.2.1, h.2.2.trans (by decide)⟩

/-- C4: for every non-empty heading text, addHeading issues exactly one
batch submission of exactly two requests in order: the InsertText of
the text plus a trailing newline at the resolved insertion index, then
the UpdateParagraphStyle whose range runs from the insertion index to
the insertion index plus the text length plus 1, exactly covering the
inserted text and its trailing newline. -/
theorem add_heading_single_batch_two_ops (doc : Document) (text headingLevel : String)
    (ht : text ≠ "") :
    addHeadingCalls doc text headingLevel =
      [.read, .submit
        [.insertText (appendInsertionIndex doc) (text ++ "\n"),
         .updateParagraphStyle (appendInsertionIndex doc)
           (appendInsertionIndex doc + ((text.length : Int) + 1))
           headingLevel "namedStyleType"]] := by
  unfold addHeadingCalls appendInsertionIndex
  have hl : (((text ++ "\n").length : Nat) : Int) = (text.length : Int) + 1 := by
    rw [String.length_append]
    show ((text.length + 1 : Nat) : Int) = (text.length : Int) + 1
    omega
  rw [hl]

/-- Witness for C4 at a concrete document and the heading Title. -/
theorem add_heading_single_batch_two_ops_witness :
    addHeadingCalls sampleDoc "Title" "HEADING_1" =
      [.read, .submit
        [.insertText 4 "Title\n",
         .updateParagraphStyle 4 10 "HEADING_1" "namedStyleType"]] := by
  have h := add_heading_single_batch_two_ops sampleDoc "Title" "HEADING_1" (by decide)
  exact h.trans (by decide)

/-- C5: clear is idempotent. Clearing the state a clear leaves behind
issues the read but no delete submission, and the cleared state is a
fixed point; moreover a delete is submitted only when the
end-of-document index exceeds 1, and then exactly over the range from
1 to the end-of-document index minus 1. The state transition of a
successful clear is the spec-modelled clearedDocument. -/
theorem clear_document_idempotent (doc : Document) :
    clearDocumentCalls (clearedDocument doc) = [.read] ∧
    clearedDocument (clearedDocument doc) = clearedDocument doc ∧
    (endOfDocumentIndex doc ≤ 1 → clearDocumentCalls doc = [.read]) ∧
    (1 < endOfDocumentIndex doc →
      clearDocumentCalls doc =
        [.read, .submit [.deleteContentRange 1 (endOfDocumentIndex doc - 1)]]) := by
  by_cases h : 1 < endOfDocumentIndex doc
  · have hcl : clearedDocument doc = { title := doc.title, body := some ⟨some []⟩ } := by
      unfold clearedDocument
      rw [if_pos h]
    have he : endOfDocumentIndex (clearedDocument doc) = 1 := by
      rw [hcl]
      rfl
    refine ⟨?_, ?_, ?_, ?_⟩
    · unfold clearDocumentCalls
      rw [he]
      simp
    · have h2 : clearedDocument (clearedDocument doc) =
          if 1 < endOfDocumentIndex (clearedDocument doc) then
            { title := (clearedDocument doc).title, body := some ⟨some []⟩ }
          else clearedDocument doc := rfl
      rw [h2, he]
      simp
    · intro hle
      exact absurd h (by omega)
    · intro _
      unfold clearDocumentCalls deleteContentCalls
      rw [if_pos h]
  · have hcl : clearedDocument doc = doc := by
      unfold clearedDocument
      rw [if_neg h]
    have hcalls : clearDocumentCalls doc = [.read] := by
      unfold clearDocumentCalls
      rw [if_neg h]
    refine ⟨?_, ?_, ?_, ?_⟩
    · rw [hcl]
      exact hcalls
    · rw [hcl]
      exact hcl
    · intro _
      exact hcalls
    · intro hlt
      exact absurd hlt h

/-- Witness for C5 at a concrete document whose last block ends at
index 5: the first clear deletes the range from 1 to 4, the second
clear issues no delete. -/
theorem clear_document_idempotent_witness :
    clearDocumentCalls (clearedDocument sampleDoc) = [.read] ∧
    clearDocumentCalls sampleDoc =
      [.read, .submit [.deleteContentRange 1 4]] := by
  have h := clear_document_idempotent sampleDoc
  refine ⟨h.1, ?_⟩
  exact (h.2.2.2 (by decide)).trans (by decide)

/-- C6: update on a non-empty document with non-empty new text performs
the clear round trip first (read, delete submission) and then the
append round trip (read, insert submission) as two sequential backend
round trips with two separate batch submissions, not one atomic batch;
and if the append step fails after the successful clear, the document
is left in the cleared state, whose end-of-document index is 1 (empty),
with no rollback. -/
theorem update_document_two_round_trips_no_rollback (doc : Document) (content : String)
    (hc : content ≠ "") (hd : 1 < endOfDocumentIndex doc) :
    updateDocumentCalls doc content =
      [.read, .submit [.deleteContentRange 1 (endOfDocumentIndex doc - 1)],
       .read, .submit [.insertText 0 content]] ∧
    endOfDocumentIndex (updateFailedAppendDoc doc) = 1 := by
  have hcl : clearedDocument doc = { title := doc.title, body := some ⟨some []⟩ } := by
    unfold clearedDocument
    rw [if_pos hd]
  have he1 : endOfDocumentIndex (clearedDocument doc) = 1 := by
    rw [hcl]
    rfl
  constructor
  · unfold updateDocumentCalls clearDocumentCalls deleteContentCalls appendTextCalls
    rw [if_pos hd, if_neg hc, if_neg hc, he1]
    rfl
  · rw [show updateFailedAppendDoc doc = clearedDocument doc from rfl, he1]

/-- Witness for C6 at a concrete document whose last block ends at
index 5 and the new text hi. -/
theorem update_document_two_round_trips_no_rollback_witness :
    updateDocumentCalls sampleDoc "hi" =
      [.read, .submit [.deleteContentRange 1 4],
       .read, .submit [.insertText 0 "hi"]] ∧
    endOfDocumentIndex (updateFailedAppendDoc sampleDoc) = 1 := by
  have h := update_document_two_round_trips_no_rollback sampleDoc "hi" (by decide) (by decide)
  exact ⟨h.1.trans (by decide), h.2⟩

/-- C7: append with empty text and addBulletList with an empty item
list are silent no-ops: each issues zero backend calls (no read and no
submission), for every document state. -/
theorem append_empty_and_bullet_list_empty_noop (doc : Document) :
    appendTextCalls doc "" = [] ∧ addBulletListCalls doc [] = [] := by
  constructor
  · unfold appendTextCalls
    simp
  · unfold addBulletListCalls
    simp

/-- C8: for every search text and replacement, replaceText submits a
single batch holding exactly one ReplaceAllText request with matchCase
true, and returns the occurrence count the backend reports in the
first reply of the response. -/
theorem replace_text_single_case_sensitive_op (searchText replacement : String)
    (n : Nat) (rest : List BatchUpdateReply) :
    replaceTextCalls searchText replacement =
      [.submit [.replaceAllText searchText true replacement]] ∧
    replaceTextResult ⟨some (⟨some ⟨some n⟩⟩ :: rest)⟩ = n :=
  ⟨rfl, rfl⟩

/-- C9: extraction is total by construction in this embedding, and
every missing or absent field (body, content, paragraph, runs, run
text, rows, cells) contributes the empty string; an empty tree yields
the empty string. -/
theorem extraction_total_missing_fields_empty :
    readDocumentContent ⟨none, none⟩ = "" ∧
    readDocumentContent ⟨some "T", none⟩ = "" ∧
    readDocumentContent ⟨some "T", some ⟨none⟩⟩ = "" ∧
    readDocumentContent ⟨some "T", some ⟨some []⟩⟩ = "" ∧
    elementText (.mk none none none) = "" ∧
    paragraphText none = "" ∧
    paragraphText (some ⟨[]⟩) = "" ∧
    runContent ⟨none⟩ = "" ∧
    runContent ⟨some ⟨none⟩⟩ = "" ∧
    cellText (.mk []) = "" ∧
    cellElementText (.mk none none none) = "" ∧
    rowText (.mk []) = "\n" ∧
    tableText (.mk []) = "[TABLE]\n[/TABLE]\n" := by decide

/-- C10: insertText at a caller supplied index with empty text is a
silent no-op issuing zero backend calls, for every index, including
invalid (negative or out of range) ones. -/
theorem insert_at_empty_text_noop (index : Int) :
    insertTextCalls "" index = [] := by
  unfold insertTextCalls
  simp

end GDocs
